import Mathlib

/-!
Verification of the biosppy quality module (biosppy/quality.py).

The module computes Signal Quality Indices for ECG and EDA segments.  We give a
shallow embedding of its data model and operations:

* signal samples are rationals (exact embedding of the numeric logic; the decimal
  literals of the source such as 0.2, 0.05, 0.9 become the rationals 1/5, 1/20, 9/10);
* quantities whose computation involves a square root (the standard deviation used
  by cSQI, the skewness used by hosSQI) live in the real numbers;
* fallible code returns Except QErr;
* numpy float special values produced by division by zero are modelled by the
  type RVal (nan, +inf, -inf or an ordinary rational), with the numpy rule that
  a comparison against nan or +inf with a finite bound is false;
* the external collaborators (hamilton_segmenter, correct_rpeaks,
  extract_heartbeats composed with corrcoef and mean, pSQI, kSQI, fSQI) are
  abstracted as an arbitrary structure of functions ECGExt, as the specification
  places them out of scope.
-/

/-- Error kinds raised by the quality module, following the specification's
taxonomy.  `missingInput` embeds the TypeError raised for an absent input,
`insufficientData` the AssertionError of the length assert, `unknownMethod` the
AssertionError of the method allow-list assert, `ioError` the IOError raised by
ecg_sqi_level3, `typeError` the TypeError raised when an absent segment reaches
an operation, and `valueError` the ValueError raised by numpy reshape or by
max() on an empty sequence. -/
inductive QErr : Type
  | missingInput : String → QErr
  | insufficientData : String → QErr
  | unknownMethod : String → QErr
  | ioError : String → QErr
  | typeError : String → QErr
  | valueError : String → QErr
deriving DecidableEq

/-- A numpy floating value: nan, +inf, -inf, or a finite value (kept exact as a
rational). -/
inductive RVal : Type
  | nan : RVal
  | pinf : RVal
  | ninf : RVal
  | num : ℚ → RVal
deriving DecidableEq

deriving instance DecidableEq for Except

/-- numpy division: a zero denominator gives nan (0/0) or a signed infinity. -/
def rvDiv (n d : ℚ) : RVal :=
  if d = 0 then (if n = 0 then .nan else if 0 < n then .pinf else .ninf)
  else .num (n / d)

/-- numpy absolute value on float specials. -/
def rvAbs : RVal → RVal
  | .nan => .nan
  | .pinf => .pinf
  | .ninf => .pinf
  | .num q => .num |q|

/-- numpy comparison of a float value with a finite bound: a comparison against
nan is false, +inf is not below any finite bound, -inf is below every one. -/
def rvLt : RVal → ℚ → Bool
  | .nan, _ => false
  | .pinf, _ => false
  | .ninf, _ => true
  | .num q, c => decide (q < c)

/-- Python max() over a list; the empty case never arises on the paths where it
is used (Python raises there, which the call sites handle explicitly). -/
def lmax : List ℚ → ℚ
  | [] => 0
  | x :: xs => xs.foldl max x

/-- Python min() over a list (see lmax). -/
def lmin : List ℚ → ℚ
  | [] => 0
  | x :: xs => xs.foldl min x

/-- numpy mean of a list of rationals (finite case; np.mean of an empty array is
nan, which the call sites model through npMean). -/
def lmean (l : List ℚ) : ℚ := l.sum / (l.length : ℚ)

/-- numpy mean returning a float value: nan on an empty array. -/
def npMean (l : List ℚ) : RVal :=
  if l.length = 0 then .nan else .num (l.sum / (l.length : ℚ))

/-- np.diff: consecutive differences, x[1:] - x[:-1]. -/
def np_diff (l : List ℤ) : List ℤ := List.zipWith (fun a b => a - b) l.tail l

/-- Fuel-driven splitting of a list into consecutive chunks of k elements
(structural recursion so that the kernel can evaluate it). -/
def chunksAux : ℕ → ℕ → List ℚ → List (List ℚ)
  | 0, _, _ => []
  | _, _, [] => []
  | f + 1, k, x :: xs => (x :: xs).take k :: chunksAux f k ((x :: xs).drop k)

/-- Split a list into consecutive non-overlapping chunks of k elements; with
k dividing the length this is the row list of numpy reshape(-1, k). -/
def chunks (k : ℕ) (l : List ℚ) : List (List ℚ) := chunksAux l.length k l

/-- The external collaborators of the quality module, abstracted: the
specification treats them as black boxes.  `hamilton` is
ecg.hamilton_segmenter (segment, sampling rate → R-peak indices), `correct` is
ecg.correct_rpeaks (segment, rpeaks, sampling rate, tolerance → corrected
R-peak indices), `extract_corr` is the composite
np.mean (np.corrcoef (ecg.extract_heartbeats (segment, rpeaks, sampling rate,
before, after))) — the mean of the full pairwise correlation matrix of the
extracted heartbeat templates — and `pSQI`, `kSQI`, `fSQI` are the external
spectral and statistical indices. -/
structure ECGExt : Type where
  hamilton : List ℚ → Option ℕ → List ℤ
  correct : List ℚ → List ℤ → ℕ → ℚ → List ℤ
  extract_corr : List ℚ → List ℤ → ℕ → ℚ → ℚ → ℚ
  pSQI : List ℚ → ℚ → ℝ
  kSQI : List ℚ → Bool → ℝ
  fSQI : List ℚ → Option ℕ → ℕ → List ℚ → Option (List ℚ) → String → ℝ

/-- The keyword parameters of quality_ecg, with the source's defaults packed in
p_default below. -/
structure ECGParams : Type where
  fisher : Bool
  f_thr : ℚ
  threshold : ℚ
  bit : ℕ
  nseg : ℕ
  num_spectrum : List ℚ
  dem_spectrum : Option (List ℚ)
  mode_fsqi : String
  verbose : ℕ

def msgInputSignal : String := "Please specify the input signal."
def msgSamplingRate : String := "Please specify the sampling rate."
def msgSegment5s : String := "Segment must be 5s long"
def msgSamplingFreq : String := "Sampling frequency is required"
def msgEdaMethods : String := "Method should be one of the following: bottcher"
def msgEcgMethods : String :=
  "Method should be one of the following: Level3, pSQI, kSQI, fSQI, cSQI, hosSQI"
def msgReshape : String := "cannot reshape array"
def msgNoneSegment : String := "segment is None"
def msgEmptyMax : String := "max() arg is an empty sequence"

/-- The part of ecg_sqi_level3 after the ADC saturation check: check the
sampling rate is present, the segment is present and at least 5 s long, then
detect and correct R-peaks, grade by heart-rate plausibility, and upgrade MQ to
HQ when the template correlation mean exceeds the threshold.  Mirrors
biosppy/quality.py lines 159-178. -/
def level3_core (ext : ECGExt) (segment? : Option (List ℚ)) (sr? : Option ℕ)
    (threshold : ℚ) : Except QErr ℚ :=
  match sr? with
  | none => .error (.ioError msgSamplingFreq)
  | some sampling_rate =>
    match segment? with
    | none => .error (.typeError msgNoneSegment)
    | some segment =>
      if segment.length < sampling_rate * 5 then .error (.ioError msgSegment5s)
      else
        let rpeak1 := ext.correct segment (ext.hamilton segment (some sampling_rate))
          sampling_rate (1/20)
        if rpeak1.length < 2 then .ok 0
        else
          let hr := (np_diff rpeak1).map (fun rr : ℤ => (sampling_rate : ℚ) * (60 / (rr : ℚ)))
          let quality : ℚ := if lmax hr ≤ 200 ∧ 40 ≤ lmin hr then 1/2 else 0
          if quality = 1/2 then
            if threshold < ext.extract_corr segment rpeak1 sampling_rate (1/5) (2/5)
            then .ok 1 else .ok quality
          else .ok quality

/-- ecg_sqi_level3 (biosppy/quality.py lines 132-178): when bit is nonzero the
ADC saturation check max(segment) - min(segment) >= 2**bit - 1 returns LQ = 0
at once (before the sampling-rate and length checks); otherwise the three-tier
grading of level3_core runs.  LQ, MQ, HQ are 0, 1/2, 1. -/
def ecg_sqi_level3 (ext : ECGExt) (segment? : Option (List ℚ)) (sr? : Option ℕ)
    (threshold : ℚ) (bit : ℕ) : Except QErr ℚ :=
  if bit = 0 then level3_core ext segment? sr? threshold
  else
    match segment? with
    | none => .error (.typeError msgNoneSegment)
    | some [] => .error (.valueError msgEmptyMax)
    | some (x :: xs) =>
      if (2 ^ bit - 1 : ℚ) ≤ lmax (x :: xs) - lmin (x :: xs) then .ok 0
      else level3_core ext (some (x :: xs)) sr? threshold

/-- The three-tier grading of ecg_sqi_level3 written from the specification's
words: fewer than 2 corrected peaks give 0; a heart rate hr_i =
sampling_rate * 60 / rr_i outside [40, 200] gives 0; otherwise the score is 1
when the mean of the full pairwise correlation matrix of the extracted
heartbeat templates strictly exceeds the threshold, else 1/2. -/
def level3Spec (ext : ECGExt) (segment : List ℚ) (sampling_rate : ℕ)
    (threshold : ℚ) : ℚ :=
  let rpeak1 := ext.correct segment (ext.hamilton segment (some sampling_rate))
    sampling_rate (1/20)
  if rpeak1.length < 2 then 0
  else
    let hr := (np_diff rpeak1).map (fun rr : ℤ => (sampling_rate : ℚ) * (60 / (rr : ℚ)))
    if ∀ h ∈ hr, 40 ≤ h ∧ h ≤ 200 then
      if threshold < ext.extract_corr segment rpeak1 sampling_rate (1/5) (2/5)
      then 1 else 1/2
    else 0

/-- eda_sqi_bottcher (biosppy/quality.py lines 181-222): check presence of the
inputs, reshape the signal into rows of 2 * sampling_rate samples (numpy
reshape raises ValueError unless the row width is positive and divides the
length), compute per-window rac = |max - min| / max with numpy float
semantics, score a window 1 when rac < 0.2 and the window mean exceeds 0.05,
and return the mean of the scores.  The under-60-s advisory under verbose only
prints and is value-irrelevant. -/
def eda_sqi_bottcher (x? : Option (List ℚ)) (sr? : Option ℕ) (verbose : ℕ) :
    Except QErr RVal :=
  match x? with
  | none => .error (.missingInput msgInputSignal)
  | some x =>
    match sr? with
    | none => .error (.missingInput msgSamplingRate)
    | some sampling_rate =>
      if 2 * sampling_rate ≠ 0 ∧ (2 * sampling_rate) ∣ x.length then
        let segments_2s := chunks (2 * sampling_rate) x
        let min_ := segments_2s.map lmin
        let max_ := segments_2s.map lmax
        let rac := List.zipWith (fun mx mn => rvAbs (rvDiv (mx - mn) mx)) max_ min_
        let means := segments_2s.map lmean
        let quality_score :=
          List.zipWith (fun r m => if rvLt r (1/5) ∧ (1/20 : ℚ) < m then (1 : ℚ) else 0)
            rac means
        .ok (npMean quality_score)
      else .error (.valueError msgReshape)

/-- Per-window binary score of the Bottcher method, written from the
specification's words: 1 iff the rate of amplitude change |max - min| / max is
strictly below 0.2 and the window mean strictly exceeds 0.05, else 0. -/
def wscore (w : List ℚ) : ℚ :=
  if rvLt (rvAbs (rvDiv (lmax w - lmin w) (lmax w))) (1/5) ∧ (1/20 : ℚ) < lmean w
  then 1 else 0

/-- The Bottcher score written from the specification's words: the arithmetic
mean of the per-window binary scores over the consecutive non-overlapping
2-second windows. -/
def bottcherSpec (x : List ℚ) (sampling_rate : ℕ) : ℚ :=
  lmean ((chunks (2 * sampling_rate) x).map wscore)

/-- The allow-list of quality_eda. -/
def edaAvailable : List String := ["bottcher"]

/-- The dispatch loop of quality_eda (biosppy/quality.py lines 57-65): per
requested method, assert membership of the allow-list, run the method, pair
the score with the method name in request order; any failure aborts the whole
call. -/
def edaLoop (x : List ℚ) (sampling_rate : ℕ) (verbose : ℕ) :
    List String → Except QErr (List (RVal × String))
  | [] => .ok []
  | method :: rest =>
    if method ∈ edaAvailable then
      match eda_sqi_bottcher (some x) (some sampling_rate) verbose with
      | .error e => .error e
      | .ok quality =>
        match edaLoop x sampling_rate verbose rest with
        | .error e => .error e
        | .ok tail => .ok ((quality, method) :: tail)
    else .error (.unknownMethod msgEdaMethods)

/-- quality_eda (biosppy/quality.py lines 24-67): presence checks for the
signal and the sampling rate, the length assert len(x) > sampling_rate * 2
(whose message reads "Segment must be 5s long"), then the dispatch loop. -/
def quality_eda (x? : Option (List ℚ)) (methods : List String) (sr? : Option ℕ)
    (verbose : ℕ) : Except QErr (List (RVal × String)) :=
  match x? with
  | none => .error (.missingInput msgInputSignal)
  | some x =>
    match sr? with
    | none => .error (.missingInput msgSamplingRate)
    | some sampling_rate =>
      if x.length ≤ sampling_rate * 2 then .error (.insufficientData msgSegment5s)
      else edaLoop x sampling_rate verbose methods

/-- Mean of a list of reals (np.mean, scipy's first moment). -/
noncomputable def rmean (l : List ℝ) : ℝ := l.sum / (l.length : ℝ)

/-- k-th central sample moment m_k, as used by np.std, scipy.stats.skew and
scipy.stats.kurtosis (population convention, the scipy default bias=True). -/
noncomputable def rmoment (k : ℕ) (l : List ℝ) : ℝ :=
  rmean (l.map (fun x => (x - rmean l) ^ k))

/-- np.std: the square root of the second central moment (population standard
deviation, the numpy default ddof=0). -/
noncomputable def npStd (l : List ℝ) : ℝ := Real.sqrt (rmoment 2 l)

def strOptimal : String := "Optimal"
def strSuspicious : String := "Suspicious"
def strUnqualified : String := "Unqualified"
def strAcceptable : String := "Acceptable"
def strUnacceptable : String := "Unacceptable"

/-- cSQI (biosppy/quality.py lines 225-266): the coefficient of variation of
the RR intervals, np.std(np.diff(rpeaks)) / np.mean(np.diff(rpeaks)).  The
returned pair carries the numeric value and the advisory banding string that
verbosity prints (None when verbose is off); the banding is
presentation-only. -/
noncomputable def cSQI (rpeaks : List ℤ) (verbose : ℕ) : ℝ × Option String :=
  let rr_intervals := (np_diff rpeaks).map (fun z : ℤ => (z : ℝ))
  let sdrr := npStd rr_intervals
  let mean_rr := rmean rr_intervals
  let v := sdrr / mean_rr
  (v, if verbose = 1 then
        some (if v < 45/100 then strOptimal
              else if v ≤ 64/100 then strSuspicious
              else strUnqualified)
      else none)

/-- Modelled from the documented semantics of the external
scipy.stats.skew (default bias=True): m3 / m2 ** 1.5. -/
noncomputable def scipySkew (l : List ℝ) : ℝ :=
  rmoment 3 l / Real.sqrt (rmoment 2 l) ^ 3

/-- Modelled from the documented semantics of the external
scipy.stats.kurtosis (defaults fisher=True, bias=True): the Fisher (excess)
kurtosis m4 / m2 ** 2 - 3, zero for a normal distribution. -/
noncomputable def scipyKurtosis (l : List ℝ) : ℝ :=
  rmoment 4 l / rmoment 2 l ^ 2 - 3

/-- hosSQI (biosppy/quality.py lines 269-316):
|scipy.stats.skew(signal)| * scipy.stats.kurtosis(signal) / 5.  The pair
carries the numeric value and the advisory banding string printed under
verbosity (presentation-only). -/
noncomputable def hosSQI (signal : List ℝ) (verbose : ℕ) : ℝ × Option String :=
  let kSQI := scipyKurtosis signal
  let sSQI := scipySkew signal
  let v := |sSQI| * kSQI / 5
  (v, if verbose = 1 then
        some (if 8/10 < v then strOptimal
              else if 5/10 < v ∧ v ≤ 8/10 then strAcceptable
              else strUnacceptable)
      else none)

/-- The allow-list of quality_ecg. -/
def ecgAvailable : List String := ["Level3", "pSQI", "kSQI", "fSQI", "cSQI", "hosSQI"]

/-- One branch of the quality_ecg dispatch (biosppy/quality.py lines 106-124):
route the method name to the matching algorithm, forwarding the relevant
parameters; an absent segment reaching a method that uses it raises.  Scores
are reals (Level3's rational grade is cast). -/
noncomputable def ecgMethod (ext : ECGExt) (segment? : Option (List ℚ))
    (sr? : Option ℕ) (p : ECGParams) (method : String) : Except QErr ℝ :=
  if method = "Level3" then
    match ecg_sqi_level3 ext segment? sr? p.threshold p.bit with
    | .error e => .error e
    | .ok q => .ok (q : ℝ)
  else if method = "pSQI" then
    match segment? with
    | none => .error (.typeError msgNoneSegment)
    | some segment => .ok (ext.pSQI segment p.f_thr)
  else if method = "kSQI" then
    match segment? with
    | none => .error (.typeError msgNoneSegment)
    | some segment => .ok (ext.kSQI segment p.fisher)
  else if method = "fSQI" then
    match segment? with
    | none => .error (.typeError msgNoneSegment)
    | some segment =>
      .ok (ext.fSQI segment sr? p.nseg p.num_spectrum p.dem_spectrum p.mode_fsqi)
  else if method = "cSQI" then
    match segment? with
    | none => .error (.typeError msgNoneSegment)
    | some segment => .ok (cSQI (ext.hamilton segment sr?) p.verbose).1
  else if method = "hosSQI" then
    match segment? with
    | none => .error (.typeError msgNoneSegment)
    | some segment => .ok (hosSQI (segment.map (fun q => (q : ℝ))) p.verbose).1
  else .error (.unknownMethod msgEcgMethods)

/-- The dispatch loop of quality_ecg (biosppy/quality.py lines 102-127): per
requested method, assert membership of the allow-list, run the method, pair
the score with the method name in request order; any failure aborts the whole
call with no partial result. -/
noncomputable def ecgLoop (ext : ECGExt) (segment? : Option (List ℚ))
    (sr? : Option ℕ) (p : ECGParams) :
    List String → Except QErr (List (ℝ × String))
  | [] => .ok []
  | method :: rest =>
    if method ∈ ecgAvailable then
      match ecgMethod ext segment? sr? p method with
      | .error e => .error e
      | .ok quality =>
        match ecgLoop ext segment? sr? p rest with
        | .error e => .error e
        | .ok tail => .ok ((quality, method) :: tail)
    else .error (.unknownMethod msgEcgMethods)

/-- quality_ecg (biosppy/quality.py lines 70-129): the dispatch loop run
directly on the inputs — the source performs no global validation of the
segment, the sampling rate or the segment length before the loop. -/
noncomputable def quality_ecg (ext : ECGExt) (segment? : Option (List ℚ))
    (methods : List String) (sr? : Option ℕ) (p : ECGParams) :
    Except QErr (List (ℝ × String)) :=
  ecgLoop ext segment? sr? p methods

/-- The source's default keyword parameters of quality_ecg. -/
def p_default : ECGParams :=
  ⟨true, 1/100, 9/10, 0, 1024, [5, 20], none, "simple", 1⟩

/-- A trivial instantiation of the external collaborators (constant values),
used to exercise the dispatch layer at concrete inputs. -/
def ext0 : ECGExt :=
  ⟨fun _ _ => [], fun _ _ _ _ => [], fun _ _ _ _ _ => 0,
   fun _ _ => 0, fun _ _ => 0, fun _ _ _ _ _ _ => 0⟩

/-- An instantiation of the external collaborators whose corrector reports the
two R-peaks 0 and 1 and whose template-correlation mean is 1. -/
def ext1 : ECGExt :=
  ⟨fun _ _ => [], fun _ _ _ _ => ([0, 1] : List ℤ), fun _ _ _ _ _ => 1,
   fun _ _ => 0, fun _ _ => 0, fun _ _ _ _ _ _ => 0⟩

/-- An arithmetic progression of n equally spaced R-peak positions starting at
a with spacing d. -/
def arithSeq (a d : ℤ) (n : ℕ) : List ℤ :=
  (List.range n).map (fun i : ℕ => a + d * (i : ℤ))

/-! ### Helper lemmas -/

lemma foldl_max_le_iff (xs : List ℚ) : ∀ x c : ℚ,
    xs.foldl max x ≤ c ↔ x ≤ c ∧ ∀ y ∈ xs, y ≤ c := by
  induction xs with
  | nil => intro x c; simp
  | cons y ys ih =>
    intro x c
    simp only [List.foldl_cons, ih, max_le_iff, List.mem_cons]
    constructor
    · rintro ⟨⟨hx, hy⟩, hall⟩
      exact ⟨hx, fun z hz => hz.elim (fun h => h ▸ hy) (hall z)⟩
    · rintro ⟨hx, hall⟩
      exact ⟨⟨hx, hall y (Or.inl rfl)⟩, fun z hz => hall z (Or.inr hz)⟩

lemma le_foldl_min_iff (xs : List ℚ) : ∀ x c : ℚ,
    c ≤ xs.foldl min x ↔ c ≤ x ∧ ∀ y ∈ xs, c ≤ y := by
  induction xs with
  | nil => intro x c; simp
  | cons y ys ih =>
    intro x c
    simp only [List.foldl_cons, ih, le_min_iff, List.mem_cons]
    constructor
    · rintro ⟨⟨hx, hy⟩, hall⟩
      exact ⟨hx, fun z hz => hz.elim (fun h => h ▸ hy) (hall z)⟩
    · rintro ⟨hx, hall⟩
      exact ⟨⟨hx, hall y (Or.inl rfl)⟩, fun z hz => hall z (Or.inr hz)⟩

/-- max(hr) <= 200 and min(hr) >= 40 is, on a nonempty list, exactly the
statement that every element lies in [40, 200]. -/
lemma band_iff (l : List ℚ) (hne : l ≠ []) :
    (lmax l ≤ 200 ∧ 40 ≤ lmin l) ↔ ∀ y ∈ l, 40 ≤ y ∧ y ≤ 200 := by
  match l with
  | [] => exact absurd rfl hne
  | x :: xs =>
    simp only [lmax, lmin, foldl_max_le_iff, le_foldl_min_iff, List.mem_cons]
    constructor
    · rintro ⟨⟨hx2, hall2⟩, hx4, hall4⟩
      rintro y (rfl | hy)
      · exact ⟨hx4, hx2⟩
      · exact ⟨hall4 y hy, hall2 y hy⟩
    · intro h
      refine ⟨⟨(h x (Or.inl rfl)).2, fun y hy => (h y (Or.inr hy)).2⟩,
        (h x (Or.inl rfl)).1, fun y hy => (h y (Or.inr hy)).1⟩

lemma chunks_ne_nil (k : ℕ) (y : ℚ) (ys : List ℚ) : chunks k (y :: ys) ≠ [] := by
  simp [chunks, chunksAux]

lemma npMean_of_ne_nil (l : List ℚ) (hne : l ≠ []) : npMean l = .num (lmean l) := by
  have : l.length ≠ 0 := fun h => hne (List.length_eq_zero.mp h)
  simp [npMean, lmean, this]

lemma wscore_unit (w : List ℚ) : 0 ≤ wscore w ∧ wscore w ≤ 1 := by
  unfold wscore; split <;> norm_num

lemma lmean_unit (l : List ℚ) (hne : l ≠ []) (h : ∀ y ∈ l, 0 ≤ y ∧ y ≤ 1) :
    0 ≤ lmean l ∧ lmean l ≤ 1 := by
  have hlen : (0 : ℚ) < (l.length : ℚ) := by
    exact_mod_cast List.length_pos.mpr hne
  have hsum0 : (0 : ℚ) ≤ l.sum := List.sum_nonneg fun x hx => (h x hx).1
  have hsum1 : l.sum ≤ (l.length : ℚ) := by
    have := List.sum_le_card_nsmul l 1 fun x hx => (h x hx).2
    simpa using this
  constructor
  · exact div_nonneg hsum0 hlen.le
  · rw [lmean, div_le_one hlen]; exact hsum1

/-- The computation of eda_sqi_bottcher on a valid input equals the
specification-side per-window score mean. -/
lemma bottcher_ok (x : List ℚ) (s : ℕ) (v : ℕ) (hs : 0 < s)
    (hdvd : 2 * s ∣ x.length) (hne : x ≠ []) :
    eda_sqi_bottcher (some x) (some s) v = .ok (.num (bottcherSpec x s)) := by
  have hk : 2 * s ≠ 0 := by omega
  have hws : chunks (2 * s) x ≠ [] := by
    match x with
    | [] => exact absurd rfl hne
    | y :: ys => exact chunks_ne_nil _ y ys
  simp only [eda_sqi_bottcher]
  rw [if_pos ⟨hk, hdvd⟩]
  have hfuse :
      List.zipWith (fun r m => if rvLt r (1/5) ∧ (1/20 : ℚ) < m then (1 : ℚ) else 0)
        (List.zipWith (fun mx mn => rvAbs (rvDiv (mx - mn) mx))
          ((chunks (2 * s) x).map lmax) ((chunks (2 * s) x).map lmin))
        ((chunks (2 * s) x).map lmean) = (chunks (2 * s) x).map wscore := by
    rw [List.zipWith_map, List.zipWith_same, List.zipWith_map,
      List.zipWith_same]
    rfl
  simp only [hfuse]
  rw [npMean_of_ne_nil _ (by simpa using hws)]
  rfl

/-! ### Claim theorems -/

/-- C2: for every nonempty segment and every nonzero bit parameter, if
max(segment) - min(segment) >= 2**bit - 1 then ecg_sqi_level3 returns exactly
0 at once — for every choice of the external collaborators and even with the
sampling rate absent, so no peak detection, correlation analysis or further
check takes part in the result. -/
theorem ecg_sqi_level3_saturation (ext : ECGExt) (segment : List ℚ)
    (sr? : Option ℕ) (threshold : ℚ) (bit : ℕ) (hbit : bit ≠ 0)
    (hne : segment ≠ []) (hsat : (2 ^ bit - 1 : ℚ) ≤ lmax segment - lmin segment) :
    ecg_sqi_level3 ext (some segment) sr? threshold bit = .ok 0 := by
  match segment with
  | [] => exact absurd rfl hne
  | x :: xs =>
    unfold ecg_sqi_level3
    rw [if_neg hbit]
    exact if_pos hsat

/-- C2 witness: a two-sample segment spanning the full 10-bit range is graded
0 by ecg_sqi_level3 with every collaborator and no sampling rate. -/
theorem ecg_sqi_level3_saturation_witness :
    ecg_sqi_level3 ext0 (some [0, 1023]) none (9/10) 10 = .ok 0 :=
  ecg_sqi_level3_saturation ext0 [0, 1023] none (9/10) 10 (by decide)
    (by decide) (by norm_num [lmax, lmin])

/-- C3: for every nonempty segment whose length is a multiple of
2 * sampling_rate (sampling rate positive), eda_sqi_bottcher partitions the
segment into consecutive non-overlapping 2-second windows, scores each window
1 iff its rate of amplitude change |max - min| / max is strictly below 0.2 and
its mean strictly exceeds 0.05 (else 0), and returns the arithmetic mean of
the per-window scores, which lies in [0, 1]. -/
theorem eda_sqi_bottcher_windows (x : List ℚ) (s : ℕ) (v : ℕ) (hs : 0 < s)
    (hdvd : 2 * s ∣ x.length) (hne : x ≠ []) :
    eda_sqi_bottcher (some x) (some s) v = .ok (.num (bottcherSpec x s)) ∧
      0 ≤ bottcherSpec x s ∧ bottcherSpec x s ≤ 1 := by
  refine ⟨bottcher_ok x s v hs hdvd hne, ?_⟩
  have hws : chunks (2 * s) x ≠ [] := by
    match x with
    | [] => exact absurd rfl hne
    | y :: ys => exact chunks_ne_nil _ y ys
  have hmap : (chunks (2 * s) x).map wscore ≠ [] := by simpa using hws
  exact lmean_unit _ hmap (by
    intro y hy
    obtain ⟨w, _, rfl⟩ := List.mem_map.mp hy
    exact wscore_unit w)

/-- C3 witness: a 2-sample segment of ones at 1 Hz forms one window and gets
the score mean of its single window. -/
theorem eda_sqi_bottcher_windows_witness :
    eda_sqi_bottcher (some [1, 1]) (some 1) 0 = .ok (.num (bottcherSpec [1, 1] 1)) ∧
      0 ≤ bottcherSpec [1, 1] 1 ∧ bottcherSpec [1, 1] 1 ≤ 1 :=
  eda_sqi_bottcher_windows [1, 1] 1 0 (by decide) (by decide) (by decide)

/-- C4 counterexample: on the all-zero segment of 4 samples at 1 Hz — whose
2-second windows all have maximum exactly 0, so that each window's rac is the
nan of 0/0 — eda_sqi_bottcher returns the ordinary number 0, not nan: the nan
is absorbed by the comparison rac < 0.2 (false on nan), the windows score 0,
and no NaN reaches the returned value. -/
theorem eda_sqi_bottcher_zero_max_counterexample :
    eda_sqi_bottcher (some [0, 0, 0, 0]) (some 1) 1 = .ok (.num 0) ∧
      RVal.num 0 ≠ RVal.nan := by
  refine ⟨?_, by decide⟩
  rw [bottcher_ok [0, 0, 0, 0] 1 1 (by decide) (by decide) (by decide)]
  have hc : chunks (2 * 1) [0, 0, 0, 0] = [[0, 0], [0, 0]] := rfl
  simp only [bottcherSpec, hc, List.map_cons, List.map_nil, wscore, lmax, lmin,
    List.foldl_cons, List.foldl_nil, max_self, min_self, sub_self, rvDiv,
    if_pos rfl, rvAbs, rvLt, lmean]
  norm_num

/-- C4 amended: a window whose maximum is exactly 0 makes that window's rac
the float nan, but the comparison nan < 0.2 is false, so the window merely
scores 0 — the division by zero never propagates to the value returned by
eda_sqi_bottcher, which on every valid segment is an ordinary rational
score. -/
theorem eda_sqi_bottcher_no_nan (x : List ℚ) (s : ℕ) (v : ℕ) (hs : 0 < s)
    (hdvd : 2 * s ∣ x.length) (hne : x ≠ []) :
    ∃ q : ℚ, eda_sqi_bottcher (some x) (some s) v = .ok (.num q) :=
  ⟨bottcherSpec x s, bottcher_ok x s v hs hdvd hne⟩

/-- C4 amended witness: the all-zero 4-sample segment at 1 Hz returns an
ordinary rational score. -/
theorem eda_sqi_bottcher_no_nan_witness :
    ∃ q : ℚ, eda_sqi_bottcher (some [0, 0, 0, 0]) (some 1) 1 = .ok (.num q) :=
  eda_sqi_bottcher_no_nan [0, 0, 0, 0] 1 1 (by decide) (by decide) (by decide)

/-- C10: for every input segment whose length is not a multiple of
2 * sampling_rate, eda_sqi_bottcher fails when reshaping into 2-second
windows — numpy reshape(-1, k) raises ValueError — so the trailing partial
window is never silently truncated and no score is returned. -/
theorem eda_sqi_bottcher_reshape_failure (x : List ℚ) (s : ℕ) (v : ℕ)
    (hndvd : ¬ (2 * s) ∣ x.length) :
    eda_sqi_bottcher (some x) (some s) v = .error (.valueError msgReshape) := by
  simp only [eda_sqi_bottcher]
  rw [if_neg (fun h => hndvd h.2)]

/-- C10 witness: a 3-sample segment at 1 Hz does not reshape into 2-sample
windows and produces the reshape error. -/
theorem eda_sqi_bottcher_reshape_failure_witness :
    eda_sqi_bottcher (some [0, 0, 0]) (some 1) 1 = .error (.valueError msgReshape) :=
  eda_sqi_bottcher_reshape_failure [0, 0, 0] 1 1 (by decide)

/-- C5: the failing input for the claimed 5-second hard minimum of
quality_eda.  The source's assert reads len(x) > sampling_rate * 2 although
its own message says "Segment must be 5s long": this 4-second segment (8
samples at 2 Hz) is shorter than 5 s, yet quality_eda computes and returns
the bottcher score 1 instead of failing with the insufficient-data error. -/
theorem quality_eda_four_second_segment_scored :
    quality_eda (some [1, 1, 1, 1, 1, 1, 1, 1]) ["bottcher"] (some 2) 1 =
      .ok [(.num 1, "bottcher")] := by
  have hv : bottcherSpec [1, 1, 1, 1, 1, 1, 1, 1] 2 = 1 := by
    have hc : chunks (2 * 2) [1, 1, 1, 1, 1, 1, 1, 1] =
        [[1, 1, 1, 1], [1, 1, 1, 1]] := rfl
    simp only [bottcherSpec, hc, List.map_cons, List.map_nil, wscore, lmax, lmin,
      List.foldl_cons, List.foldl_nil, max_self, min_self, sub_self, rvDiv,
      rvAbs, rvLt, lmean]
    norm_num
  simp only [quality_eda]
  rw [if_neg (by norm_num)]
  simp only [edaLoop]
  rw [if_pos (by decide),
    bottcher_ok [1, 1, 1, 1, 1, 1, 1, 1] 2 1 (by decide) (by decide) (by decide), hv]

lemma np_diff_length (l : List ℤ) : (np_diff l).length = l.length - 1 := by
  simp [np_diff, List.length_zipWith, List.length_tail]

/-- The computation after the saturation check equals the specification-side
three-tier grading whenever the segment is at least 5 s long. -/
lemma level3_core_eq (ext : ECGExt) (segment : List ℚ) (sampling_rate : ℕ)
    (threshold : ℚ) (hlen : sampling_rate * 5 ≤ segment.length) :
    level3_core ext (some segment) (some sampling_rate) threshold =
      .ok (level3Spec ext segment sampling_rate threshold) := by
  simp only [level3_core, level3Spec]
  rw [if_neg (by omega)]
  set R := ext.correct segment (ext.hamilton segment (some sampling_rate))
    sampling_rate (1/20) with hR
  set hr := (np_diff R).map (fun rr : ℤ => (sampling_rate : ℚ) * (60 / (rr : ℚ)))
    with hhr
  by_cases h2 : R.length < 2
  · rw [if_pos h2, if_pos h2]
  · rw [if_neg h2, if_neg h2]
    have hrne : hr ≠ [] := by
      apply List.length_pos.mp
      rw [hhr, List.length_map, np_diff_length]
      omega
    by_cases hband : lmax hr ≤ 200 ∧ 40 ≤ lmin hr
    · rw [if_pos hband, if_pos ((band_iff hr hrne).mp hband), if_pos rfl]
      by_cases hc : threshold < ext.extract_corr segment R sampling_rate (1/5) (2/5)
      · rw [if_pos hc, if_pos hc]
      · rw [if_neg hc, if_neg hc]
    · rw [if_neg hband, if_neg (fun hall => hband ((band_iff hr hrne).mpr hall)),
        if_neg (by norm_num)]

/-- C1: for every choice of the external collaborators and every segment
passing the ADC saturation check (and long enough for the 5-second check),
ecg_sqi_level3 returns exactly the three-tier grade: 0 when fewer than 2
corrected R-peaks remain; else, with instantaneous heart rates
hr_i = sampling_rate * 60 / rr_i over the consecutive corrected-peak
differences, 0 when some hr_i lies outside [40, 200]; else 1 when the mean of
the full pairwise correlation matrix of the extracted heartbeat templates
strictly exceeds the threshold, and 1/2 otherwise. -/
theorem ecg_sqi_level3_grading (ext : ECGExt) (segment : List ℚ)
    (sampling_rate : ℕ) (threshold : ℚ) (bit : ℕ) (hne : segment ≠ [])
    (hsat : bit = 0 ∨ lmax segment - lmin segment < 2 ^ bit - 1)
    (hlen : sampling_rate * 5 ≤ segment.length) :
    ecg_sqi_level3 ext (some segment) (some sampling_rate) threshold bit =
      .ok (level3Spec ext segment sampling_rate threshold) := by
  by_cases hbit : bit = 0
  · unfold ecg_sqi_level3
    rw [if_pos hbit]
    exact level3_core_eq ext segment sampling_rate threshold hlen
  · have hub : lmax segment - lmin segment < (2 ^ bit - 1 : ℚ) :=
      hsat.resolve_left hbit
    match segment, hne, hub, hlen with
    | x :: xs, _, hub, hlen =>
      unfold ecg_sqi_level3
      rw [if_neg hbit]
      show (if (2 ^ bit - 1 : ℚ) ≤ lmax (x :: xs) - lmin (x :: xs)
            then (Except.ok 0 : Except QErr ℚ)
            else level3_core ext (some (x :: xs)) (some sampling_rate) threshold) =
        Except.ok (level3Spec ext (x :: xs) sampling_rate threshold)
      rw [if_neg (not_le.mpr hub)]
      exact level3_core_eq ext (x :: xs) sampling_rate threshold hlen

/-- C1 witness: at 1 Hz on a 5-sample segment, with collaborators reporting
corrected peaks 0 and 1 (heart rate 60 bpm) and template-correlation mean 1,
the grading theorem applies with bit = 0. -/
theorem ecg_sqi_level3_grading_witness :
    ecg_sqi_level3 ext1 (some [0, 0, 0, 0, 0]) (some 1) (9/10) 0 =
      .ok (level3Spec ext1 [0, 0, 0, 0, 0] 1 (9/10)) :=
  ecg_sqi_level3_grading ext1 [0, 0, 0, 0, 0] 1 (9/10) 0 (by decide)
    (Or.inl rfl) (by decide)

/-- C6 counterexample: quality_ecg performs no global precondition validation.
With both the segment and the sampling rate absent and an empty method list it
returns an empty result set instead of raising the missing-input error, and
with a single-sample segment (far below any 5-second minimum) it computes and
returns a kSQI score instead of raising the insufficient-data error. -/
theorem quality_ecg_no_validation_counterexample :
    quality_ecg ext0 none [] none p_default = .ok [] ∧
      quality_ecg ext0 (some [0]) ["kSQI"] none p_default =
        .ok [(ext0.kSQI [0] p_default.fisher, "kSQI")] := by
  constructor
  · rfl
  · rfl

/-- C6 amended: quality_ecg validates nothing before dispatching.  For every
collaborator choice, segment and sampling rate — absent ones included — an
empty method list yields an empty result set with no error; an absent segment
or sampling rate only surfaces inside an individual method after dispatch has
begun, as with Level3 (bit = 0), whose sampling-frequency error is raised from
within ecg_sqi_level3. -/
theorem quality_ecg_no_global_validation :
    (∀ (ext : ECGExt) (segment? : Option (List ℚ)) (sr? : Option ℕ)
      (p : ECGParams), quality_ecg ext segment? [] sr? p = .ok []) ∧
    (∀ (ext : ECGExt) (segment : List ℚ) (fisher : Bool) (f_thr threshold : ℚ)
      (nseg : ℕ) (nsp : List ℚ) (dsp : Option (List ℚ)) (mode : String) (v : ℕ),
      quality_ecg ext (some segment) ["Level3"] none
        ⟨fisher, f_thr, threshold, 0, nseg, nsp, dsp, mode, v⟩ =
        .error (.ioError msgSamplingFreq)) := by
  constructor
  · intro ext segment? sr? p
    rfl
  · intro ext segment fisher f_thr threshold nseg nsp dsp mode v
    rfl

/-- The dispatch loop of quality_ecg fails whenever a requested method is
outside the allow-list: earlier methods either fail themselves (aborting the
call) or succeed, reaching the assert at the unknown name. -/
lemma ecgLoop_error_of_unknown (ext : ECGExt) (segment? : Option (List ℚ))
    (sr? : Option ℕ) (p : ECGParams) :
    ∀ (methods : List String) (m : String), m ∈ methods → m ∉ ecgAvailable →
      ∃ e, ecgLoop ext segment? sr? p methods = .error e := by
  intro methods
  induction methods with
  | nil => intro m hm; exact absurd hm (List.not_mem_nil m)
  | cons m0 rest ih =>
    intro m hm hnot
    by_cases h0 : m0 ∈ ecgAvailable
    · rw [ecgLoop, if_pos h0]
      match ecgMethod ext segment? sr? p m0 with
      | .error e => exact ⟨e, rfl⟩
      | .ok q =>
        have hm' : m ∈ rest := by
          rcases List.mem_cons.mp hm with rfl | h
          · exact absurd h0 hnot
          · exact h
        obtain ⟨e, he⟩ := ih m hm' hnot
        rw [he]
        exact ⟨e, rfl⟩
    · rw [ecgLoop, if_neg h0]
      exact ⟨.unknownMethod msgEcgMethods, rfl⟩

/-- The dispatch loop of quality_eda fails whenever a requested method is
outside the allow-list. -/
lemma edaLoop_error_of_unknown (x : List ℚ) (s : ℕ) (v : ℕ) :
    ∀ (methods : List String) (m : String), m ∈ methods → m ∉ edaAvailable →
      ∃ e, edaLoop x s v methods = .error e := by
  intro methods
  induction methods with
  | nil => intro m hm; exact absurd hm (List.not_mem_nil m)
  | cons m0 rest ih =>
    intro m hm hnot
    by_cases h0 : m0 ∈ edaAvailable
    · rw [edaLoop, if_pos h0]
      match eda_sqi_bottcher (some x) (some s) v with
      | .error e => exact ⟨e, rfl⟩
      | .ok q =>
        have hm' : m ∈ rest := by
          rcases List.mem_cons.mp hm with rfl | h
          · exact absurd h0 hnot
          · exact h
        obtain ⟨e, he⟩ := ih m hm' hnot
        rw [he]
        exact ⟨e, rfl⟩
    · rw [edaLoop, if_neg h0]
      exact ⟨.unknownMethod msgEdaMethods, rfl⟩

/-- C9: a method name outside the fixed allow-list aborts the entire dispatch
call with no partial result set, for both quality_ecg (allow-list Level3,
pSQI, kSQI, fSQI, cSQI, hosSQI) and quality_eda (allow-list bottcher): any
request list containing an unknown name yields an error and no results at
all; and requesting exactly the single unknown method name raises the
unknown-method assertion itself — for quality_ecg unconditionally, for
quality_eda once its input checks pass — before any score is computed. -/
theorem dispatch_unknown_method_rejection :
    (∀ (ext : ECGExt) (segment? : Option (List ℚ)) (sr? : Option ℕ)
      (p : ECGParams) (methods : List String) (m : String),
      m ∈ methods → m ∉ ecgAvailable →
      ∃ e, quality_ecg ext segment? methods sr? p = .error e) ∧
    (∀ (x? : Option (List ℚ)) (sr? : Option ℕ) (v : ℕ)
      (methods : List String) (m : String),
      m ∈ methods → m ∉ edaAvailable →
      ∃ e, quality_eda x? methods sr? v = .error e) ∧
    (∀ (ext : ECGExt) (segment? : Option (List ℚ)) (sr? : Option ℕ)
      (p : ECGParams),
      quality_ecg ext segment? ["notamethod"] sr? p =
        .error (.unknownMethod msgEcgMethods)) ∧
    (∀ (x : List ℚ) (s : ℕ) (v : ℕ), s * 2 < x.length →
      quality_eda (some x) ["notamethod"] (some s) v =
        .error (.unknownMethod msgEdaMethods)) := by
  refine ⟨?_, ?_, ?_, ?_⟩
  · intro ext segment? sr? p methods m hm hnot
    exact ecgLoop_error_of_unknown ext segment? sr? p methods m hm hnot
  · intro x? sr? v methods m hm hnot
    match x? with
    | none => exact ⟨.missingInput msgInputSignal, rfl⟩
    | some x =>
      match sr? with
      | none => exact ⟨.missingInput msgSamplingRate, rfl⟩
      | some s =>
        simp only [quality_eda]
        by_cases hlen : x.length ≤ s * 2
        · rw [if_pos hlen]
          exact ⟨.insufficientData msgSegment5s, rfl⟩
        · rw [if_neg hlen]
          exact edaLoop_error_of_unknown x s v methods m hm hnot
  · intro ext segment? sr? p
    rfl
  · intro x s v hlen
    simp only [quality_eda]
    rw [if_neg (by omega)]
    rfl

/-- C9 witness: with the trivial collaborators and default parameters, the
single unknown name aborts both dispatchers on concrete inputs. -/
theorem dispatch_unknown_method_rejection_witness :
    (∃ e, quality_ecg ext0 none ["notamethod"] none p_default = .error e) ∧
      quality_eda (some [0, 0, 0]) ["notamethod"] (some 1) 0 =
        .error (.unknownMethod msgEdaMethods) :=
  ⟨dispatch_unknown_method_rejection.1 ext0 none none p_default
      ["notamethod"] "notamethod" (by decide) (by decide),
    dispatch_unknown_method_rejection.2.2.2 [0, 0, 0] 1 0 (by decide)⟩

lemma arithSeq_succ (a d : ℤ) (n : ℕ) :
    arithSeq a d (n + 1) = a :: arithSeq (a + d) d n := by
  simp only [arithSeq, List.range_succ_eq_map, List.map_cons, List.map_map]
  congr 1
  · simp
  · exact List.map_congr_left fun i _ => by
      simp only [Function.comp_apply]
      push_cast
      ring

lemma np_diff_cons₂ (x y : ℤ) (t : List ℤ) :
    np_diff (x :: y :: t) = (y - x) :: np_diff (y :: t) := rfl

lemma np_diff_arithSeq (d : ℤ) : ∀ (n : ℕ) (a : ℤ),
    np_diff (arithSeq a d (n + 1)) = List.replicate n d := by
  intro n
  induction n with
  | zero => intro a; rw [arithSeq_succ]; rfl
  | succ m ih =>
    intro a
    rw [arithSeq_succ, arithSeq_succ, np_diff_cons₂, ← arithSeq_succ,
      ih (a + d)]
    simp [List.replicate_succ]

lemma rmean_replicate (n : ℕ) (c : ℝ) (hn : 0 < n) :
    rmean (List.replicate n c) = c := by
  rw [rmean, List.sum_replicate, List.length_replicate, nsmul_eq_mul]
  exact mul_div_cancel_left₀ c (by exact_mod_cast hn.ne')

lemma rmoment_two_replicate (n : ℕ) (c : ℝ) (hn : 0 < n) :
    rmoment 2 (List.replicate n c) = 0 := by
  rw [rmoment, rmean_replicate n c hn, List.map_replicate, sub_self]
  norm_num [rmean, List.sum_replicate]

/-- C7: for every R-peak sequence of at least 2 peaks, cSQI returns exactly
np.std(np.diff(rpeaks)) / np.mean(np.diff(rpeaks)); the value is unchanged by
the verbosity flag — the Optimal/Suspicious/Unqualified banding computed under
verbosity is presentation-only — and R-peaks at exactly equal nonzero spacing
(zero RR variance) yield exactly 0. -/
theorem cSQI_coefficient_of_variation (rpeaks : List ℤ) (v : ℕ)
    (h2 : 2 ≤ rpeaks.length) :
    (cSQI rpeaks v).1 =
      npStd ((np_diff rpeaks).map (fun z : ℤ => (z : ℝ))) /
        rmean ((np_diff rpeaks).map (fun z : ℤ => (z : ℝ))) ∧
    (cSQI rpeaks v).1 = (cSQI rpeaks 0).1 ∧
    (∀ (a d : ℤ), d ≠ 0 → rpeaks = arithSeq a d rpeaks.length →
      (cSQI rpeaks v).1 = 0) := by
  refine ⟨rfl, rfl, ?_⟩
  intro a d hd heq
  obtain ⟨m, hm⟩ : ∃ m, rpeaks.length = m + 1 := by
    cases h : rpeaks.length with
    | zero => omega
    | succ m => exact ⟨m, rfl⟩
  rw [hm] at heq
  have hdiff : np_diff rpeaks = List.replicate m d := by
    rw [heq]
    exact np_diff_arithSeq d m a
  have hmpos : 0 < m := by
    have : (np_diff rpeaks).length = rpeaks.length - 1 := np_diff_length rpeaks
    rw [hdiff, List.length_replicate] at this
    omega
  show npStd ((np_diff rpeaks).map (fun z : ℤ => (z : ℝ))) /
      rmean ((np_diff rpeaks).map (fun z : ℤ => (z : ℝ))) = 0
  rw [hdiff, List.map_replicate, npStd, rmoment_two_replicate m _ hmpos,
    Real.sqrt_zero, zero_div]

/-- C7 witness: the equally spaced peaks 0, 2, 4 yield cSQI exactly 0. -/
theorem cSQI_coefficient_of_variation_witness : (cSQI [0, 2, 4] 1).1 = 0 :=
  (cSQI_coefficient_of_variation [0, 2, 4] 1 (by decide)).2.2 0 2 (by decide)
    (by decide)

/-- C8: for every signal, hosSQI returns exactly
|skewness(signal)| * kurtosis(signal) / 5 with the kurtosis in the Fisher
(excess) convention m4 / m2 ^ 2 - 3; the verbosity banding never alters the
value; and a signal with vanishing third central moment (a perfectly
symmetric signal) yields exactly 0. -/
theorem hosSQI_formula (l : List ℝ) (v : ℕ) :
    (hosSQI l v).1 = |scipySkew l| * scipyKurtosis l / 5 ∧
    scipyKurtosis l = rmoment 4 l / rmoment 2 l ^ 2 - 3 ∧
    (hosSQI l v).1 = (hosSQI l 0).1 ∧
    (rmoment 3 l = 0 → (hosSQI l v).1 = 0) := by
  refine ⟨rfl, rfl, rfl, fun h3 => ?_⟩
  show |scipySkew l| * scipyKurtosis l / 5 = 0
  rw [scipySkew, h3, zero_div, abs_zero, zero_mul, zero_div]

/-- C8 witness: the perfectly symmetric two-sample signal -1, 1 has vanishing
third central moment and hosSQI exactly 0. -/
theorem hosSQI_formula_witness : (hosSQI [-1, 1] 1).1 = 0 :=
  (hosSQI_formula [-1, 1] 1).2.2.2 (by
    norm_num [rmoment, rmean, List.sum_cons, List.sum_nil])
